import Mathlib

/-!
Shallow embedding of `src/main.py` (Projeto-PDF): a FastAPI service with two
conversion endpoints, `/converter-para-pdf` (images to PDF) and
`/converter-para-imagem` (first PDF page to JPEG).

Modelling conventions:
* Python strings are `List Char`; `str.strip`, `str.lower`, `re.sub` and
  `str.endswith` are embedded as `pyStrip`, `pyLower`, `pySub`, `isSuffixOf`.
* The filesystem's temporary-file namespace is a `St` record: a fresh-name
  counter (`tempfile.NamedTemporaryFile` yields unique names) plus the list of
  live (existing) temp files.  `os.remove` is `List.erase`; `cleanup_file`
  removes a path if present (it never raises).
* Upload streams are lists of chunk sizes, mirroring
  `await upload_file.read(1024*1024)`: a read returns `0` exactly at end of
  stream, so the walrus-`while` loop stops at the first zero chunk.
* External collaborators are oracles in the request environment: the sniffed
  MIME type (`magic.from_file`, `none` if sniffing raises), success of
  `img2pdf.convert`, the page count produced by `convert_from_bytes`
  (`none` if it raises), and success of the PIL `save`/output `write` calls.
* `BackgroundTasks.add_task(cleanup_file, p)` appends to `St.bg`.  FastAPI
  runs those tasks only when the handler returns a response; when an
  `HTTPException` propagates they are dropped, so the state returned together
  with an `HResult.err` is the disk state as the error response is sent.
* Instrumentation counters (`convertCalls`, `sniffCalls`, `rasterized`)
  record how often the converters were invoked and how many PDF pages the
  rasterizer produced; they are observation-only and drive no decision.
-/

deriving instance DecidableEq for Except

namespace ProjetoPDF

/-- `MAX_FILE_SIZE = 10 * 1024 * 1024` from `src/main.py` line 32. -/
def MAX_FILE_SIZE : Nat := 10 * 1024 * 1024

/-- Characters kept by `re.sub(r'[^\w\-. ]', '', s)` (ASCII fragment of `\w`). -/
def keepChar (c : Char) : Bool :=
  c.isAlphanum || c == '_' || c == '-' || c == '.' || c == ' '

/-- Whitespace stripped by Python `str.strip()` (ASCII whitespace). -/
def isPySpace (c : Char) : Bool :=
  c == ' ' || c == '\t' || c == '\n' || c == '\r' || c == '\x0b' || c == '\x0c'

/-- Python `str.strip()`. -/
def pyStrip (s : List Char) : List Char :=
  ((s.dropWhile isPySpace).reverse.dropWhile isPySpace).reverse

/-- Python `re.sub(r'[^\w\-. ]', '', s)`. -/
def pySub (s : List Char) : List Char := s.filter keepChar

/-- Python `str.lower()` (ASCII). -/
def pyLower (s : List Char) : List Char := s.map Char.toLower

/-- Python `s.startswith(p)`. -/
def strStartsWith : List Char → List Char → Bool
  | _, [] => true
  | [], _ :: _ => false
  | c :: cs, p :: ps => c == p && strStartsWith cs ps

/-- `sanitize_filename` from `src/main.py` lines 66-81. -/
def sanitize_filename (filename : Option (List Char)) (dflt : List Char)
    (extn : List Char) : List Char :=
  match filename with
  | none => dflt
  | some f =>
    if f = [] ∨ pyStrip f = [] then dflt
    else
      let s := pySub (pyStrip f)
      if s = [] then dflt
      else if extn.isSuffixOf (pyLower s) then s else s ++ extn

/-- Distinct `detail` messages of the `HTTPException`s raised in `src/main.py`. -/
inductive ErrDetail where
  | fileTooLarge                       -- line 93
  | invalidFileType (mime : List Char) -- line 107
  | cannotValidate                     -- line 112
  | noFileSent                         -- line 131
  | notImage                           -- line 137
  | imgConvertFailed                   -- line 155
  | pdfCorrupt                         -- line 214
  | noPagesExtracted                   -- line 217
  | internalError                      -- lines 100, 185, 246
deriving DecidableEq, Repr

/-- An `HTTPException`: status code plus detail message. -/
structure HErr where
  status : Nat
  detail : ErrDetail
deriving DecidableEq, Repr

def errTooLarge : HErr := ⟨413, ErrDetail.fileTooLarge⟩

/-- Filesystem / instrumentation state of one request. -/
structure St where
  nextId : Nat          -- fresh temporary-file name counter
  live : List Nat       -- temp files currently existing on disk
  convertCalls : Nat    -- invocations of img2pdf.convert / convert_from_bytes
  sniffCalls : Nat      -- invocations of magic.from_file (via validate_file_type)
  rasterized : Nat      -- pages produced by convert_from_bytes
  bg : List Nat         -- files with a scheduled background cleanup task
deriving DecidableEq, Repr

def initSt : St := ⟨0, [], 0, 0, 0, []⟩

/-- `cleanup_file` from `src/main.py` lines 57-64: delete if present, never raise. -/
def cleanup_file (st : St) (path : Nat) : St :=
  { st with live := st.live.erase path }

/-- The `for path in ...: cleanup_file(path)` loops of the except blocks. -/
def cleanupAll (st : St) (paths : List Nat) : St :=
  paths.foldl cleanup_file st

/-- The `while content := await upload_file.read(1024*1024)` loop of
`save_upload_file_tmp` (lines 87-94): accumulate chunk sizes, abort with 413
the moment the running total exceeds `MAX_FILE_SIZE` (the offending chunk is
not written).  Returns the error, if any, and the bytes written. -/
def saveLoop (size : Nat) : List Nat → Option HErr × Nat
  | [] => (none, size)
  | c :: rest =>
    if c = 0 then (none, size)
    else if MAX_FILE_SIZE < size + c then (some errTooLarge, size)
    else saveLoop (size + c) rest

/-- `save_upload_file_tmp` from `src/main.py` lines 83-100: create a fresh
temp file, drain the stream with the size check, delete the partial file and
fail 413 on overflow.  Returns (result, state, bytes written). -/
def save_upload_file_tmp (st : St) (chunks : List Nat) :
    Except HErr Nat × St × Nat :=
  let fid := st.nextId
  let stA := { st with nextId := fid + 1, live := fid :: st.live }
  match saveLoop 0 chunks with
  | (some e, w) => (Except.error e, { stA with live := stA.live.erase fid }, w)
  | (none, w) => (Except.ok fid, stA, w)

def MIME_IMAGE_PRE : List Char := "image/".toList
def ALLOWED_IMAGE_TYPES : List (List Char) :=
  ["image/jpeg".toList, "image/png".toList, "image/gif".toList]
def ALLOWED_PDF_TYPES : List (List Char) := ["application/pdf".toList]

/-- `validate_file_type` from `src/main.py` lines 102-112.  `sniff` is the
result of `magic.from_file(file_path, mime=True)`: `none` models the sniffing
call itself raising (e.g. unreadable file), which the bare `except` turns
into a 400 with a distinct message. -/
def validate_file_type (sniff : Option (List Char))
    (allowed : List (List Char)) : Except HErr Unit :=
  match sniff with
  | some m =>
    if m ∈ allowed then Except.ok ()
    else Except.error ⟨400, ErrDetail.invalidFileType m⟩
  | none => Except.error ⟨400, ErrDetail.cannotValidate⟩

/-- One uploaded file: declared `content_type` header, stream chunk sizes,
and the MIME type `magic` would sniff from its bytes on disk. -/
structure FileEnv where
  contentType : List Char
  chunks : List Nat
  sniff : Option (List Char)
deriving DecidableEq, Repr

/-- Request environment of `/converter-para-pdf`. -/
structure PdfEnv where
  files : List FileEnv       -- the `arquivo` multipart field
  nome : Option (List Char)  -- the `nome_arquivo` form field
  imgOk : Bool               -- img2pdf.convert succeeds
  outWriteOk : Bool          -- tmp_output_file.write(pdf_bytes) succeeds
deriving DecidableEq, Repr

/-- Request environment of `/converter-para-imagem`. -/
structure ImgEnv where
  file : FileEnv             -- the single `arquivo` upload
  nome : Option (List Char)
  pdfPages : Option Nat      -- convert_from_bytes: none = raises, some n = n pages
  saveJpegOk : Bool          -- primeira_pagina.save(...) succeeds
deriving DecidableEq, Repr

/-- Response payloads: the bytes served by the `FileResponse`. -/
inductive Payload where
  | pdfOf (inputs : List Nat)  -- PDF composed by img2pdf from these input files
  | jpegPage (page : Nat)      -- JPEG render of this page index
deriving DecidableEq, Repr

/-- Outcome of a request: a 200 `FileResponse` or an `HTTPException`. -/
inductive HResult where
  | ok (fileId : Nat) (payload : Payload) (filename : List Char)
  | err (e : HErr)
deriving DecidableEq, Repr

/-- The `for file in arquivo:` loop of `converter_para_pdf` (lines 134-147):
header check, save to temp, schedule background cleanup, sniff-validate.
Returns (error?, tmp_input_paths collected so far) and the state. -/
def pdfLoop : List FileEnv → St → List Nat → (Option HErr × List Nat) × St
  | [], st, acc => ((none, acc), st)
  | f :: rest, st, acc =>
    if strStartsWith f.contentType MIME_IMAGE_PRE then
      match save_upload_file_tmp st f.chunks with
      | (Except.error e, st', _) => ((some e, acc), st')
      | (Except.ok fid, st', _) =>
        let st2 := { st' with bg := st'.bg ++ [fid],
                              sniffCalls := st'.sniffCalls + 1 }
        match validate_file_type f.sniff ALLOWED_IMAGE_TYPES with
        | Except.error e => ((some e, acc ++ [fid]), st2)
        | Except.ok _ => pdfLoop rest st2 (acc ++ [fid])
    else ((some ⟨400, ErrDetail.notImage⟩, acc), st)

def defaultPdfName : List Char := "convertido.pdf".toList
def pdfExtn : List Char := ".pdf".toList
def defaultJpgName : List Char := "pagina_1.jpg".toList
def jpgExtn : List Char := ".jpg".toList

/-- `converter_para_pdf` from `src/main.py` lines 120-185.  The two `except`
blocks clean `tmp_input_paths` and, when it was assigned, `tmp_output_path`;
a failure of the output `write` happens before `tmp_output_path` is assigned,
so only the inputs are cleaned on that 500 path. -/
def converter_para_pdf (env : PdfEnv) : HResult × St :=
  if env.files = [] then (HResult.err ⟨400, ErrDetail.noFileSent⟩, initSt)
  else
    match pdfLoop env.files initSt [] with
    | ((some e, acc), st) => (HResult.err e, cleanupAll st acc)
    | ((none, inputs), st) =>
      let st := { st with convertCalls := st.convertCalls + 1 }
      if env.imgOk then
        let oid := st.nextId
        let st2 := { st with nextId := oid + 1, live := oid :: st.live }
        if env.outWriteOk then
          let st3 := { st2 with bg := st2.bg ++ [oid] }
          (HResult.ok oid (Payload.pdfOf inputs)
            (sanitize_filename env.nome defaultPdfName pdfExtn), st3)
        else
          (HResult.err ⟨500, ErrDetail.internalError⟩, cleanupAll st2 inputs)
      else
        (HResult.err ⟨400, ErrDetail.imgConvertFailed⟩, cleanupAll st inputs)

/-- `converter_para_imagem` from `src/main.py` lines 188-246.  Mirrors the
source: save upload, schedule cleanup, sniff-validate against PDF types,
rasterize all pages, keep `imagens[0]`, write it as JPEG to a fresh output
temp file; the `except` blocks clean whichever of `tmp_input_path` /
`tmp_output_path` were assigned. -/
def converter_para_imagem (env : ImgEnv) : HResult × St :=
  match save_upload_file_tmp initSt env.file.chunks with
  | (Except.error e, st, _) => (HResult.err e, st)
  | (Except.ok fid, st, _) =>
    let st := { st with bg := st.bg ++ [fid], sniffCalls := st.sniffCalls + 1 }
    match validate_file_type env.file.sniff ALLOWED_PDF_TYPES with
    | Except.error e => (HResult.err e, cleanupAll st [fid])
    | Except.ok _ =>
      match env.pdfPages with
      | none =>
        let st := { st with convertCalls := st.convertCalls + 1 }
        (HResult.err ⟨400, ErrDetail.pdfCorrupt⟩, cleanupAll st [fid])
      | some n =>
        let st := { st with convertCalls := st.convertCalls + 1,
                            rasterized := n }
        if n = 0 then
          (HResult.err ⟨400, ErrDetail.noPagesExtracted⟩, cleanupAll st [fid])
        else
          let oid := st.nextId
          let st2 := { st with nextId := oid + 1, live := oid :: st.live }
          if env.saveJpegOk then
            let st3 := { st2 with bg := st2.bg ++ [oid] }
            (HResult.ok oid (Payload.jpegPage 0)
              (sanitize_filename env.nome defaultJpgName jpgExtn), st3)
          else
            (HResult.err ⟨500, ErrDetail.internalError⟩, cleanupAll st2 [fid])

/-- Per-file success of the batch loop: header passes, stream within the
limit, sniffed type in the image allow-list. -/
def sniffAllowed (sniff : Option (List Char)) (allowed : List (List Char)) : Bool :=
  match sniff with
  | some m => decide (m ∈ allowed)
  | none => false

def filePasses (f : FileEnv) : Bool :=
  strStartsWith f.contentType MIME_IMAGE_PRE
    && decide (f.chunks.sum ≤ MAX_FILE_SIZE)
    && sniffAllowed f.sniff ALLOWED_IMAGE_TYPES

/-- A file that fails validation (header check or content sniff), as opposed
to failing on size. -/
def fileFailsValidation (f : FileEnv) : Bool :=
  !strStartsWith f.contentType MIME_IMAGE_PRE
    || !sniffAllowed f.sniff ALLOWED_IMAGE_TYPES

/-- Aggregate uploaded bytes of a request to `/converter-para-pdf`. -/
def totalSize (env : PdfEnv) : Nat := (env.files.map fun f => f.chunks.sum).sum

/-! ### Concrete request environments used in the witnesses and counterexamples -/

/-- Ten reads of the full 1 MiB chunk size: an upload of exactly 10 MiB. -/
def tenMiBChunks : List Nat :=
  [1048576, 1048576, 1048576, 1048576, 1048576,
   1048576, 1048576, 1048576, 1048576, 1048576]

/-- A 6 MiB upload stream (six full 1 MiB reads). -/
def sixMiBChunks : List Nat :=
  [1048576, 1048576, 1048576, 1048576, 1048576, 1048576]

/-- A genuine 6 MiB JPEG upload. -/
def jpeg6MiB : FileEnv := ⟨"image/jpeg".toList, sixMiBChunks, some "image/jpeg".toList⟩

/-- Two 6 MiB JPEGs in one batch: each within the limit, 12 MiB in total. -/
def envTwoSixMiB : PdfEnv := ⟨[jpeg6MiB, jpeg6MiB], none, true, true⟩

/-- A valid small PDF upload whose first-page JPEG cannot be written
(`primeira_pagina.save` raises, e.g. disk full). -/
def envJpegWriteFails : ImgEnv :=
  ⟨⟨[], [5], some "application/pdf".toList⟩, none, some 1, false⟩

/-- A valid small two-page PDF upload, all external calls succeeding. -/
def envTwoPages : ImgEnv :=
  ⟨⟨[], [5], some "application/pdf".toList⟩, none, some 2, true⟩

/-- A PDF upload whose on-disk bytes cannot be sniffed (`magic.from_file` raises). -/
def envSniffRaises : ImgEnv := ⟨⟨[], [5], none⟩, none, some 1, true⟩

/-- A batch upload declaring `image/jpeg` in its header while its actual bytes
sniff as `text/plain`. -/
def spoofedFile : FileEnv := ⟨"image/jpeg".toList, [5], some "text/plain".toList⟩

def envSpoofed : PdfEnv := ⟨[spoofedFile], none, true, true⟩

/-- A default output name carrying no extension. -/
def nameNoExtn : List Char := "convertido".toList

/-- A safe-character filename with a leading space. -/
def spacedName : List Char := " a.pdf".toList

/-- An eleven-MiB upload: ten full reads plus one more. -/
def overChunks : List Nat := tenMiBChunks ++ [1048576]

def envOverImg : ImgEnv :=
  ⟨⟨[], overChunks, some ("application/pdf".toList)⟩, none, some 1, true⟩

def overFile : FileEnv :=
  ⟨"image/jpeg".toList, overChunks, some ("image/jpeg".toList)⟩

/-- State after one passing iteration of the batch loop starting from `st`:
the fresh file is on disk, the sniffer ran once more, and its background
cleanup is scheduled. -/
def stepSt (st : St) : St :=
  { st with nextId := st.nextId + 1, live := st.nextId :: st.live,
            sniffCalls := st.sniffCalls + 1, bg := st.bg ++ [st.nextId] }

/-! ### Lemmas about the upload loop -/

lemma saveLoop_no_err (chunks : List Nat) :
    ∀ size, size + chunks.sum ≤ MAX_FILE_SIZE → (saveLoop size chunks).1 = none := by
  induction chunks with
  | nil => intro size _; rfl
  | cons c rest ih =>
    intro size h
    rw [List.sum_cons, ← Nat.add_assoc] at h
    unfold saveLoop
    by_cases hc : c = 0
    · rw [if_pos hc]
    · rw [if_neg hc, if_neg (by omega)]
      exact ih (size + c) h

lemma saveLoop_full (chunks : List Nat) (hpos : ∀ c ∈ chunks, 0 < c) :
    ∀ size, size + chunks.sum ≤ MAX_FILE_SIZE →
      saveLoop size chunks = (none, size + chunks.sum) := by
  induction chunks with
  | nil => intro size _; simp [saveLoop]
  | cons c rest ih =>
    intro size h
    rw [List.sum_cons, ← Nat.add_assoc] at h
    have hc : c ≠ 0 := Nat.pos_iff_ne_zero.mp (hpos c (List.mem_cons_self c rest))
    unfold saveLoop
    rw [if_neg hc, if_neg (by omega)]
    rw [ih (fun x hx => hpos x (List.mem_cons_of_mem c hx)) (size + c) h]
    simp [List.sum_cons, Nat.add_assoc]

lemma saveLoop_over (chunks : List Nat) (hpos : ∀ c ∈ chunks, 0 < c) :
    ∀ size, size ≤ MAX_FILE_SIZE → MAX_FILE_SIZE < size + chunks.sum →
      (saveLoop size chunks).1 = some errTooLarge
      ∧ (saveLoop size chunks).2 ≤ MAX_FILE_SIZE := by
  induction chunks with
  | nil => intro size hle hgt; rw [List.sum_nil] at hgt; omega
  | cons c rest ih =>
    intro size hle hgt
    rw [List.sum_cons] at hgt
    have hc : c ≠ 0 := Nat.pos_iff_ne_zero.mp (hpos c (List.mem_cons_self c rest))
    unfold saveLoop
    rw [if_neg hc]
    by_cases hov : MAX_FILE_SIZE < size + c
    · rw [if_pos hov]; exact ⟨rfl, hle⟩
    · rw [if_neg hov]
      exact ih (fun x hx => hpos x (List.mem_cons_of_mem c hx)) (size + c)
        (by omega) (by omega)

/-- A within-limit stream is saved: fresh file id, file on disk. -/
lemma save_ok_of_le (st : St) (chunks : List Nat)
    (h : chunks.sum ≤ MAX_FILE_SIZE) :
    ∃ w, save_upload_file_tmp st chunks
      = (Except.ok st.nextId,
         { st with nextId := st.nextId + 1, live := st.nextId :: st.live }, w) := by
  have h0 : (saveLoop 0 chunks).1 = none := saveLoop_no_err chunks 0 (by simpa)
  rcases hsl : saveLoop 0 chunks with ⟨oe, w⟩
  rw [hsl] at h0; subst h0
  exact ⟨w, by simp [save_upload_file_tmp, hsl]⟩

/-- A positive within-limit stream is written in full. -/
lemma save_full (st : St) (chunks : List Nat) (hpos : ∀ c ∈ chunks, 0 < c)
    (h : chunks.sum ≤ MAX_FILE_SIZE) :
    save_upload_file_tmp st chunks
      = (Except.ok st.nextId,
         { st with nextId := st.nextId + 1, live := st.nextId :: st.live },
         chunks.sum) := by
  have hsl : saveLoop 0 chunks = (none, chunks.sum) := by
    simpa using saveLoop_full chunks hpos 0 (by simpa)
  simp [save_upload_file_tmp, hsl]

/-- An over-limit positive stream fails 413, its partial file deleted and at
most `MAX_FILE_SIZE` bytes ever written. -/
lemma save_over (st : St) (chunks : List Nat) (hpos : ∀ c ∈ chunks, 0 < c)
    (h : MAX_FILE_SIZE < chunks.sum) :
    ∃ w, save_upload_file_tmp st chunks
        = (Except.error errTooLarge, { st with nextId := st.nextId + 1 }, w)
      ∧ w ≤ MAX_FILE_SIZE := by
  obtain ⟨h1, h2⟩ := saveLoop_over chunks hpos 0 (Nat.zero_le _) (by simpa)
  rcases hsl : saveLoop 0 chunks with ⟨oe, w⟩
  rw [hsl] at h1 h2; subst h1
  refine ⟨w, ?_, h2⟩
  simp only [save_upload_file_tmp, hsl]
  rw [List.erase_cons_head]

lemma validate_err_status (sniff : Option (List Char))
    (allowed : List (List Char)) :
    ∀ e, validate_file_type sniff allowed = Except.error e → e.status = 400 := by
  intro e h
  unfold validate_file_type at h
  cases sniff with
  | none => cases h; rfl
  | some m =>
    have h' : (if m ∈ allowed then (Except.ok () : Except HErr Unit)
        else Except.error ⟨400, ErrDetail.invalidFileType m⟩) = Except.error e := h
    by_cases hm : m ∈ allowed
    · rw [if_pos hm] at h'; cases h'
    · rw [if_neg hm] at h'; cases h'; rfl

lemma validate_err_of_not_allowed (sniff : Option (List Char))
    (allowed : List (List Char)) (h : sniffAllowed sniff allowed = false) :
    ∃ e, validate_file_type sniff allowed = Except.error e ∧ e.status = 400 := by
  cases sniff with
  | none => exact ⟨⟨400, ErrDetail.cannotValidate⟩, rfl, rfl⟩
  | some m =>
    have hm : m ∉ allowed := by simpa [sniffAllowed] using h
    exact ⟨⟨400, ErrDetail.invalidFileType m⟩,
      by simp [validate_file_type, hm], rfl⟩

/-! ### Lemmas about cleanup -/

lemma cleanupAll_eq (ps : List Nat) : ∀ st : St,
    cleanupAll st ps = { st with live := ps.foldl (fun l p => l.erase p) st.live } := by
  induction ps with
  | nil => intro st; rfl
  | cons p ps ih =>
    intro st
    show cleanupAll (cleanup_file st p) ps = _
    rw [ih]; rfl

lemma eraseFold_cons_of_notMem (acc : List Nat) (fid : Nat) :
    ∀ l : List Nat, fid ∉ acc →
      acc.foldl (fun ll p => ll.erase p) (fid :: l)
        = fid :: acc.foldl (fun ll p => ll.erase p) l := by
  induction acc with
  | nil => intro l _; rfl
  | cons a as ih =>
    intro l h
    have hne : a ≠ fid := fun he => h (he ▸ List.mem_cons_self a as)
    simp only [List.foldl_cons]
    rw [List.erase_cons_tail (by simpa using hne.symm)]
    exact ih (l.erase a) (fun hm => h (List.mem_cons_of_mem a hm))

/-- Cleaning `acc ++ [fid]` on a state whose disk is `fid :: st.live` leaves
what cleaning `acc` on `st` leaves, provided `fid` is fresh. -/
lemma cleanup_snoc (st : St) (acc : List Nat)
    (hacc : ∀ a ∈ acc, a < st.nextId) (st2 : St)
    (h2 : st2.live = st.nextId :: st.live) :
    (cleanupAll st2 (acc ++ [st.nextId])).live = (cleanupAll st acc).live := by
  rw [cleanupAll_eq, cleanupAll_eq, h2, List.foldl_append]
  simp only [List.foldl_cons, List.foldl_nil]
  rw [eraseFold_cons_of_notMem acc st.nextId st.live
    (fun hm => absurd (hacc _ hm) (lt_irrefl _))]
  exact List.erase_cons_head _ _

lemma validate_ok_of_allowed (sniff : Option (List Char))
    (allowed : List (List Char)) (h : sniffAllowed sniff allowed = true) :
    validate_file_type sniff allowed = Except.ok () := by
  cases sniff with
  | none => simp [sniffAllowed] at h
  | some m =>
    have hm : m ∈ allowed := by simpa [sniffAllowed] using h
    simp [validate_file_type, hm]

lemma pdfLoop_cons_hdr_fail (f : FileEnv) (rest : List FileEnv) (st : St)
    (acc : List Nat) (hh : strStartsWith f.contentType MIME_IMAGE_PRE = false) :
    pdfLoop (f :: rest) st acc
      = ((some ⟨400, ErrDetail.notImage⟩, acc), st) := by
  simp only [pdfLoop]
  rw [if_neg (by simp [hh])]

lemma pdfLoop_cons_save_err (f : FileEnv) (rest : List FileEnv) (st : St)
    (acc : List Nat) (hh : strStartsWith f.contentType MIME_IMAGE_PRE = true)
    (hpos : ∀ c ∈ f.chunks, 0 < c) (hov : MAX_FILE_SIZE < f.chunks.sum) :
    pdfLoop (f :: rest) st acc
      = ((some errTooLarge, acc), { st with nextId := st.nextId + 1 }) := by
  obtain ⟨w, hs, _⟩ := save_over st f.chunks hpos hov
  simp only [pdfLoop]
  rw [if_pos hh, hs]

lemma pdfLoop_cons_validate_err (f : FileEnv) (rest : List FileEnv) (st : St)
    (acc : List Nat) (e' : HErr)
    (hh : strStartsWith f.contentType MIME_IMAGE_PRE = true)
    (hsz : f.chunks.sum ≤ MAX_FILE_SIZE)
    (hv : validate_file_type f.sniff ALLOWED_IMAGE_TYPES = Except.error e') :
    pdfLoop (f :: rest) st acc = ((some e', acc ++ [st.nextId]), stepSt st) := by
  obtain ⟨w, hs⟩ := save_ok_of_le st f.chunks hsz
  simp only [pdfLoop]
  rw [if_pos hh, hs, hv]
  rfl

lemma pdfLoop_cons_validate_ok (f : FileEnv) (rest : List FileEnv) (st : St)
    (acc : List Nat)
    (hh : strStartsWith f.contentType MIME_IMAGE_PRE = true)
    (hsz : f.chunks.sum ≤ MAX_FILE_SIZE)
    (hv : validate_file_type f.sniff ALLOWED_IMAGE_TYPES = Except.ok ()) :
    pdfLoop (f :: rest) st acc
      = pdfLoop rest (stepSt st) (acc ++ [st.nextId]) := by
  obtain ⟨w, hs⟩ := save_ok_of_le st f.chunks hsz
  simp only [pdfLoop]
  rw [if_pos hh, hs, hv]
  rfl

/-- When every file of the batch is within the size limit, the loop can only
fail with a 400-status error (header or validation), never with 413. -/
lemma pdfLoop_no_413 (files : List FileEnv)
    (h : ∀ f ∈ files, f.chunks.sum ≤ MAX_FILE_SIZE) :
    ∀ st acc e, (pdfLoop files st acc).1.1 = some e → e.status ≠ 413 := by
  induction files with
  | nil => intro st acc e h'; cases h'
  | cons f rest ih =>
    intro st acc e h'
    by_cases hh : strStartsWith f.contentType MIME_IMAGE_PRE = true
    · have hsz := h f (List.mem_cons_self f rest)
      rcases hv : validate_file_type f.sniff ALLOWED_IMAGE_TYPES with e' | u
      · rw [pdfLoop_cons_validate_err f rest st acc e' hh hsz hv] at h'
        have h4 := validate_err_status _ _ e' hv
        cases h'
        omega
      · cases u
        rw [pdfLoop_cons_validate_ok f rest st acc hh hsz hv] at h'
        exact ih (fun g hg => h g (List.mem_cons_of_mem f hg)) _ _ e h'
    · simp only [Bool.not_eq_true] at hh
      rw [pdfLoop_cons_hdr_fail f rest st acc hh] at h'
      cases h'
      decide

/-! ### Lemmas about the filename sanitizer -/

lemma keep_not_pyspace (c : Char) (h1 : keepChar c = true) (h2 : c ≠ ' ') :
    isPySpace c = false := by
  by_contra hx
  rw [Bool.not_eq_false] at hx
  have hc : c = ' ' ∨ c = '\t' ∨ c = '\n' ∨ c = '\r' ∨ c = '\x0b' ∨ c = '\x0c' := by
    simpa [isPySpace, Bool.or_eq_true, beq_iff_eq, or_assoc] using hx
  rcases hc with h | h | h | h | h | h
  · exact h2 h
  all_goals { subst h; exact absurd h1 (by decide) }

/-- A nonempty-or-empty list of kept characters with no bounding space is
unchanged by Python `strip`. -/
lemma all_keep_pyStrip (s : List Char) (hall : ∀ c ∈ s, keepChar c = true)
    (hh : s.head? ≠ some ' ') (hl : s.getLast? ≠ some ' ') : pyStrip s = s := by
  have h1 : s.dropWhile isPySpace = s := by
    cases s with
    | nil => rfl
    | cons a as =>
      have ha : keepChar a = true := hall a (List.mem_cons_self a as)
      have ha2 : a ≠ ' ' := fun he => hh (by rw [List.head?_cons, he])
      rw [List.dropWhile_cons, keep_not_pyspace a ha ha2]
      simp
  have h2 : s.reverse.dropWhile isPySpace = s.reverse := by
    cases hsr : s.reverse with
    | nil => rfl
    | cons a as =>
      have hmem : a ∈ s := by
        have : a ∈ s.reverse := by rw [hsr]; exact List.mem_cons_self a as
        simpa using this
      have ha : keepChar a = true := hall a hmem
      have ha2 : a ≠ ' ' := by
        intro he
        apply hl
        rw [List.getLast?_eq_head?_reverse, hsr, List.head?_cons, he]
      rw [List.dropWhile_cons, keep_not_pyspace a ha ha2]
      simp
  rw [pyStrip, h1, h2, List.reverse_reverse]

/-- A nonempty list of kept characters with no bounding space whose
lowercase form ends in `e` is a fixed point of the sanitizer. -/
lemma sanitize_eq_self (s d e : List Char) (hne : s ≠ [])
    (hall : ∀ c ∈ s, keepChar c = true)
    (hh : s.head? ≠ some ' ') (hl : s.getLast? ≠ some ' ')
    (hsuf : e.isSuffixOf (pyLower s) = true) :
    sanitize_filename (some s) d e = s := by
  have hstrip : pyStrip s = s := all_keep_pyStrip s hall hh hl
  have hsub : pySub s = s := List.filter_eq_self.mpr hall
  simp only [sanitize_filename]
  rw [hstrip, hsub, if_neg (by simp [hne]), if_neg hne, if_pos hsuf]

/-! ### Claim theorems -/

/-- Claim C1 (code bug).  The claim says every scratch file of a failed
request is deleted before the error response.  On `/converter-para-imagem`,
when the PIL `save` of the first-page JPEG raises after
`tempfile.NamedTemporaryFile` has already created the output file,
`tmp_output_path` is still `None`, so neither `except` block deletes the
output scratch file (and FastAPI drops the scheduled background tasks on an
exception): the request ends in a 500 with file `1` still on disk. -/
theorem c1_output_scratch_leak :
    (converter_para_imagem envJpegWriteFails).1
      = HResult.err ⟨500, ErrDetail.internalError⟩
    ∧ (converter_para_imagem envJpegWriteFails).2.live = [1]
    ∧ (converter_para_imagem envJpegWriteFails).2.live ≠ [] := by
  decide

/-- Claim C3, counterexample.  A batch of two 6 MiB images (12 MiB total,
each file within the limit) is not rejected with 413: it converts
successfully, so the 10 MiB limit is not enforced per request in aggregate. -/
theorem c3_aggregate_cex :
    MAX_FILE_SIZE < totalSize envTwoSixMiB
    ∧ (∀ f ∈ envTwoSixMiB.files, f.chunks.sum ≤ MAX_FILE_SIZE)
    ∧ (converter_para_pdf envTwoSixMiB).1
        = HResult.ok 2 (Payload.pdfOf [0, 1]) defaultPdfName := by
  decide

/-- Claim C5, counterexample.  When sniffing itself fails the validator
raises status 400 (with the distinct "could not validate" message), not the
InternalError 500 the claim asserts; the same 400 reaches the client of
`/converter-para-imagem`. -/
theorem c5_sniff_failure_cex :
    validate_file_type none ALLOWED_PDF_TYPES
      = Except.error ⟨400, ErrDetail.cannotValidate⟩
    ∧ (converter_para_imagem envSniffRaises).1
        = HResult.err ⟨400, ErrDetail.cannotValidate⟩
    ∧ (400 : Nat) ≠ 500 := by
  decide

/-- Claim C6, counterexample.  A well-formed two-page PDF: the response is
indeed the first-page JPEG, but `convert_from_bytes` rasterizes both pages
(`rasterized = 2`), refuting "pages after the first are never processed by
the rasterization step". -/
theorem c6_raster_all_pages_cex :
    (converter_para_imagem envTwoPages).1
      = HResult.ok 1 (Payload.jpegPage 0) defaultJpgName
    ∧ (converter_para_imagem envTwoPages).2.rasterized = 2
    ∧ ¬ (converter_para_imagem envTwoPages).2.rasterized ≤ 1 := by
  decide

/-- Claim C7, counterexample.  A batch file whose client header says
`image/jpeg` but whose bytes sniff as `text/plain` is rejected with 400 and
the sniffer runs once: the batch variant does not validate by the header
alone, it also sniffs the bytes on disk via `validate_file_type`. -/
theorem c7_header_only_cex :
    strStartsWith spoofedFile.contentType MIME_IMAGE_PRE = true
    ∧ (converter_para_pdf envSpoofed).1
        = HResult.err ⟨400, ErrDetail.invalidFileType ("text/plain".toList)⟩
    ∧ (converter_para_pdf envSpoofed).2.sniffCalls = 1 := by
  decide

/-- Claim C8, counterexample.  With a default name lacking the required
extension, a blank input returns the default unchanged, but sanitizing that
output again appends the extension: `sanitize` is not idempotent for every
input, default and extension. -/
theorem c8_idempotent_cex :
    sanitize_filename (some (sanitize_filename (some []) nameNoExtn pdfExtn))
        nameNoExtn pdfExtn
      ≠ sanitize_filename (some []) nameNoExtn pdfExtn := by
  decide

/-- Claim C9, counterexample.  `" a.pdf"` is non-blank, consists only of
word characters, hyphens, periods and spaces, and ends with `".pdf"`, yet
`sanitize_filename` trims the leading space and returns `"a.pdf" ≠ " a.pdf"`. -/
theorem c9_identity_cex :
    (∀ c ∈ spacedName, keepChar c = true)
    ∧ pyStrip spacedName ≠ []
    ∧ pdfExtn.isSuffixOf (pyLower spacedName) = true
    ∧ sanitize_filename (some spacedName) defaultPdfName pdfExtn ≠ spacedName := by
  decide

lemma cleanupAll_convertCalls (st : St) (ps : List Nat) :
    (cleanupAll st ps).convertCalls = st.convertCalls := by
  rw [cleanupAll_eq]

/-- Processing a prefix of passing files followed by a file that fails
validation aborts the loop with a 400-status error; cleaning the collected
paths restores the disk to its pre-batch contents and the converter counter
is untouched. -/
lemma pdfLoop_abort (pre : List FileEnv) (f : FileEnv) (rest : List FileEnv)
    (hpre : ∀ g ∈ pre, filePasses g = true)
    (hsize : f.chunks.sum ≤ MAX_FILE_SIZE)
    (hbad : fileFailsValidation f = true) :
    ∀ st acc, (∀ a ∈ acc, a < st.nextId) →
    ∃ e acc' st',
      pdfLoop (pre ++ f :: rest) st acc = ((some e, acc'), st')
      ∧ e.status = 400
      ∧ st'.convertCalls = st.convertCalls
      ∧ (cleanupAll st' acc').live = (cleanupAll st acc).live := by
  induction pre with
  | nil =>
    intro st acc hacc
    by_cases hh : strStartsWith f.contentType MIME_IMAGE_PRE = true
    · have hsn : sniffAllowed f.sniff ALLOWED_IMAGE_TYPES = false := by
        have hb := hbad
        unfold fileFailsValidation at hb
        rw [hh] at hb
        simpa using hb
      obtain ⟨e0, hv, h400⟩ := validate_err_of_not_allowed _ _ hsn
      refine ⟨e0, acc ++ [st.nextId], stepSt st, ?_, h400, rfl, ?_⟩
      · simpa using pdfLoop_cons_validate_err f rest st acc e0 hh hsize hv
      · exact cleanup_snoc st acc hacc (stepSt st) rfl
    · simp only [Bool.not_eq_true] at hh
      exact ⟨⟨400, ErrDetail.notImage⟩, acc, st,
        by simpa using pdfLoop_cons_hdr_fail f rest st acc hh, rfl, rfl, rfl⟩
  | cons g pre' ih =>
    intro st acc hacc
    have hg := hpre g (List.mem_cons_self g pre')
    unfold filePasses at hg
    rw [Bool.and_eq_true, Bool.and_eq_true] at hg
    obtain ⟨⟨hgh, hgsz⟩, hga⟩ := hg
    have hgs : g.chunks.sum ≤ MAX_FILE_SIZE := of_decide_eq_true hgsz
    have hv := validate_ok_of_allowed _ _ hga
    have hstep : pdfLoop ((g :: pre') ++ f :: rest) st acc
        = pdfLoop (pre' ++ f :: rest) (stepSt st) (acc ++ [st.nextId]) := by
      simpa using pdfLoop_cons_validate_ok g (pre' ++ f :: rest) st acc hgh hgs hv
    have hacc' : ∀ a ∈ acc ++ [st.nextId], a < (stepSt st).nextId := by
      intro a ha
      rcases List.mem_append.mp ha with h1 | h2
      · exact Nat.lt_trans (hacc a h1) (Nat.lt_succ_self _)
      · have : a = st.nextId := by simpa using h2
        subst this
        exact Nat.lt_succ_self _
    obtain ⟨e, acc', st', heq, h400, hcv, hcl⟩ :=
      ih (fun x hx => hpre x (List.mem_cons_of_mem g hx)) (stepSt st)
        (acc ++ [st.nextId]) hacc'
    refine ⟨e, acc', st', hstep.trans heq, h400, hcv, ?_⟩
    rw [hcl]
    exact cleanup_snoc st acc hacc (stepSt st) rfl

/-- Claim C4 (confirmed).  In the batch image-to-PDF endpoint the files of a
request whose prefix validates but whose next file fails validation (bad
header or bad sniffed type) produce a 400 abort of the whole batch:
`img2pdf` is never invoked, no output is created, and every scratch file
allocated for the batch has been deleted when the error response returns. -/
theorem c4_batch_abort (pre : List FileEnv) (f : FileEnv) (rest : List FileEnv)
    (nome : Option (List Char)) (io oo : Bool)
    (hpre : ∀ g ∈ pre, filePasses g = true)
    (hsize : f.chunks.sum ≤ MAX_FILE_SIZE)
    (hbad : fileFailsValidation f = true) :
    ∃ e, (converter_para_pdf ⟨pre ++ f :: rest, nome, io, oo⟩).1 = HResult.err e
      ∧ e.status = 400
      ∧ (converter_para_pdf ⟨pre ++ f :: rest, nome, io, oo⟩).2.convertCalls = 0
      ∧ (converter_para_pdf ⟨pre ++ f :: rest, nome, io, oo⟩).2.live = [] := by
  obtain ⟨e, acc', st', heq, h400, hcv, hcl⟩ :=
    pdfLoop_abort pre f rest hpre hsize hbad initSt [] (by intro a ha; cases ha)
  have hcomp : converter_para_pdf ⟨pre ++ f :: rest, nome, io, oo⟩
      = (HResult.err e, cleanupAll st' acc') := by
    unfold converter_para_pdf
    rw [if_neg (by simp), heq]
  refine ⟨e, ?_, h400, ?_, ?_⟩
  · rw [hcomp]
  · rw [hcomp]
    show (cleanupAll st' acc').convertCalls = 0
    rw [cleanupAll_convertCalls, hcv]
    rfl
  · rw [hcomp]
    show (cleanupAll st' acc').live = []
    rw [hcl]
    rfl

/-- Witness for C4: a passing 6 MiB JPEG followed by a file whose bytes
sniff as `text/plain` aborts the batch with 400, no conversion, empty disk. -/
theorem c4_batch_abort_w :
    ∃ e, (converter_para_pdf ⟨[jpeg6MiB, spoofedFile], none, true, true⟩).1
        = HResult.err e
      ∧ e.status = 400
      ∧ (converter_para_pdf ⟨[jpeg6MiB, spoofedFile], none, true, true⟩).2.convertCalls = 0
      ∧ (converter_para_pdf ⟨[jpeg6MiB, spoofedFile], none, true, true⟩).2.live = [] := by
  exact c4_batch_abort [jpeg6MiB] spoofedFile [] none true true
    (by decide) (by decide) (by decide)

/-- Claim C10 (confirmed).  The size check `if size > MAX_FILE_SIZE` is
strict: for a stream of positive chunks, `save_upload_file_tmp` raises the
413 error iff the accumulated byte count strictly exceeds `MAX_FILE_SIZE`;
a stream totalling at most (hence also exactly) `MAX_FILE_SIZE` is accepted,
written in full, and its temp file is on disk. -/
theorem c10_limit_strict (st : St) (chunks : List Nat)
    (hpos : ∀ c ∈ chunks, 0 < c) :
    ((save_upload_file_tmp st chunks).1 = Except.error errTooLarge
        ↔ MAX_FILE_SIZE < chunks.sum)
    ∧ (chunks.sum ≤ MAX_FILE_SIZE →
        (save_upload_file_tmp st chunks).1 = Except.ok st.nextId
        ∧ (save_upload_file_tmp st chunks).2.2 = chunks.sum
        ∧ (save_upload_file_tmp st chunks).2.1.live = st.nextId :: st.live) := by
  constructor
  · constructor
    · intro h
      by_contra hng
      push_neg at hng
      rw [save_full st chunks hpos hng] at h
      cases h
    · intro h
      obtain ⟨w, heq, _⟩ := save_over st chunks hpos h
      rw [heq]
  · intro h
    rw [save_full st chunks hpos h]
    exact ⟨rfl, rfl, rfl⟩

/-- Witness for C10: an upload of exactly 10 MiB (ten full 1 MiB reads) is
accepted and written in full. -/
theorem c10_limit_strict_w :
    (save_upload_file_tmp initSt tenMiBChunks).1 = Except.ok 0
    ∧ (save_upload_file_tmp initSt tenMiBChunks).2.2 = MAX_FILE_SIZE := by
  have h := (c10_limit_strict initSt tenMiBChunks (by decide)).2 (by decide)
  exact ⟨h.1, h.2.1.trans (by decide)⟩

/-- Claim C2 (confirmed).  An over-limit positive stream makes
`save_upload_file_tmp` fail with the 413 error the moment the limit is
exceeded (never more than `MAX_FILE_SIZE` bytes are written), the partial
temp file is deleted, and on both endpoints such an upload yields the 413
response with no file left on disk and the converter never invoked. -/
theorem c2_payload_too_large (st : St) (chunks : List Nat) (envI : ImgEnv)
    (f : FileEnv) (rest : List FileEnv) (nome : Option (List Char)) (io oo : Bool)
    (hpos : ∀ c ∈ chunks, 0 < c) (hover : MAX_FILE_SIZE < chunks.sum)
    (hIc : envI.file.chunks = chunks) (hPc : f.chunks = chunks)
    (hPh : strStartsWith f.contentType MIME_IMAGE_PRE = true) :
    (save_upload_file_tmp st chunks).1 = Except.error errTooLarge
    ∧ (save_upload_file_tmp st chunks).2.1.live = st.live
    ∧ (save_upload_file_tmp st chunks).2.2 ≤ MAX_FILE_SIZE
    ∧ (converter_para_imagem envI).1 = HResult.err errTooLarge
    ∧ (converter_para_imagem envI).2.live = []
    ∧ (converter_para_imagem envI).2.convertCalls = 0
    ∧ (converter_para_pdf ⟨f :: rest, nome, io, oo⟩).1 = HResult.err errTooLarge
    ∧ (converter_para_pdf ⟨f :: rest, nome, io, oo⟩).2.live = []
    ∧ (converter_para_pdf ⟨f :: rest, nome, io, oo⟩).2.convertCalls = 0 := by
  obtain ⟨w, hsv, hw⟩ := save_over st chunks hpos hover
  obtain ⟨w0, hsv0, hw0⟩ := save_over initSt chunks hpos hover
  have himg : converter_para_imagem envI
      = (HResult.err errTooLarge, { initSt with nextId := 1 }) := by
    unfold converter_para_imagem
    rw [hIc, hsv0]
    rfl
  have hloop : pdfLoop (f :: rest) initSt []
      = ((some errTooLarge, []), { initSt with nextId := 1 }) := by
    simp only [pdfLoop]
    rw [if_pos hPh, hPc, hsv0]
    rfl
  have hpdf : converter_para_pdf ⟨f :: rest, nome, io, oo⟩
      = (HResult.err errTooLarge, { initSt with nextId := 1 }) := by
    unfold converter_para_pdf
    rw [if_neg (by simp), hloop]
    rfl
  rw [hsv, himg, hpdf]
  exact ⟨rfl, rfl, hw, rfl, rfl, rfl, rfl, rfl, rfl⟩

/-- Claim C3, amended (corrected).  The 10 MiB limit is enforced per
individual file, not per request in aggregate: a request every file of which
is within the limit never gets the 413 response (whatever the total), while
a request whose first file exceeds the limit does fail with 413. -/
theorem c3_per_file_limit (env : PdfEnv) :
    ((∀ f ∈ env.files, f.chunks.sum ≤ MAX_FILE_SIZE) →
      ∀ e, (converter_para_pdf env).1 = HResult.err e → e.status ≠ 413)
    ∧ (∀ f rest, env.files = f :: rest →
        strStartsWith f.contentType MIME_IMAGE_PRE = true →
        (∀ c ∈ f.chunks, 0 < c) → MAX_FILE_SIZE < f.chunks.sum →
        (converter_para_pdf env).1 = HResult.err errTooLarge) := by
  constructor
  · intro hall e he
    by_cases hf : env.files = []
    · unfold converter_para_pdf at he
      rw [if_pos hf] at he
      cases he
      decide
    · unfold converter_para_pdf at he
      rw [if_neg hf] at he
      rcases hl : pdfLoop env.files initSt [] with ⟨⟨oe, acc⟩, st⟩
      rw [hl] at he
      cases oe with
      | some e' =>
        have h413 := pdfLoop_no_413 env.files hall initSt [] e' (by rw [hl])
        cases he
        exact h413
      | none =>
        by_cases hio : env.imgOk = true
        · by_cases hoo : env.outWriteOk = true
          · simp only [hio, hoo, if_true] at he
            cases he
          · simp only [Bool.not_eq_true] at hoo
            simp only [hio, hoo, if_true, Bool.false_eq_true, if_false] at he
            cases he
            decide
        · simp only [Bool.not_eq_true] at hio
          simp only [hio, Bool.false_eq_true, if_false] at he
          cases he
          decide
  · intro f rest hfe hh hpos hov
    have hcomp : converter_para_pdf env
        = (HResult.err errTooLarge, { initSt with nextId := 1 }) := by
      unfold converter_para_pdf
      rw [hfe, if_neg (by simp), pdfLoop_cons_save_err f rest initSt [] hh hpos hov]
      rfl
    rw [hcomp]

/-- Witness for the amended C3: a single 11 MiB file is rejected with 413. -/
theorem c3_per_file_limit_w :
    (converter_para_pdf ⟨[overFile], none, true, true⟩).1
      = HResult.err errTooLarge := by
  exact (c3_per_file_limit ⟨[overFile], none, true, true⟩).2 overFile [] rfl
    (by decide) (by decide) (by decide)

/-- Witness for C2: an 11 MiB upload gets the 413 response on both
endpoints, leaves no file on disk and never reaches conversion. -/
theorem c2_payload_too_large_w :
    (converter_para_imagem envOverImg).1 = HResult.err errTooLarge
    ∧ (converter_para_imagem envOverImg).2.live = []
    ∧ (converter_para_imagem envOverImg).2.convertCalls = 0
    ∧ (converter_para_pdf ⟨[overFile], none, true, true⟩).1
        = HResult.err errTooLarge := by
  have h := c2_payload_too_large initSt overChunks envOverImg overFile []
    none true true (by decide) (by decide) rfl rfl (by decide)
  exact ⟨h.2.2.2.1, h.2.2.2.2.1, h.2.2.2.2.2.1, h.2.2.2.2.2.2.1⟩

/-- Claim C5, amended (corrected).  When sniffing itself fails the validator
raises an error distinct from the type-mismatch error (different detail
message), but with the same HTTP status 400, not 500. -/
theorem c5_sniff_failure_distinct (allowed : List (List Char)) (m : List Char)
    (hm : m ∉ allowed) :
    validate_file_type none allowed
      = Except.error ⟨400, ErrDetail.cannotValidate⟩
    ∧ validate_file_type (some m) allowed
        = Except.error ⟨400, ErrDetail.invalidFileType m⟩
    ∧ ErrDetail.cannotValidate ≠ ErrDetail.invalidFileType m := by
  refine ⟨rfl, ?_, by intro h; cases h⟩
  simp [validate_file_type, hm]

/-- Witness for the amended C5 at the PDF allow-list and sniffed type
`text/plain`. -/
theorem c5_sniff_failure_distinct_w :
    validate_file_type none ALLOWED_PDF_TYPES
      = Except.error ⟨400, ErrDetail.cannotValidate⟩
    ∧ validate_file_type (some ("text/plain".toList)) ALLOWED_PDF_TYPES
        = Except.error ⟨400, ErrDetail.invalidFileType ("text/plain".toList)⟩
    ∧ ErrDetail.cannotValidate ≠ ErrDetail.invalidFileType ("text/plain".toList) :=
  c5_sniff_failure_distinct ALLOWED_PDF_TYPES ("text/plain".toList) (by decide)

/-- Claim C6, amended (corrected).  A well-formed `n+1`-page PDF yields the
JPEG of the first page as response body, but the rasterization step
(`convert_from_bytes`) processes all `n+1` pages; the pages after the first
are merely discarded afterwards. -/
theorem c6_first_page_jpeg (env : ImgEnv) (n : Nat)
    (hsz : env.file.chunks.sum ≤ MAX_FILE_SIZE)
    (hsn : env.file.sniff = some ("application/pdf".toList))
    (hpg : env.pdfPages = some (n + 1))
    (hwr : env.saveJpegOk = true) :
    (converter_para_imagem env).1
      = HResult.ok 1 (Payload.jpegPage 0)
          (sanitize_filename env.nome defaultJpgName jpgExtn)
    ∧ (converter_para_imagem env).2.rasterized = n + 1 := by
  obtain ⟨w, hs⟩ := save_ok_of_le initSt env.file.chunks hsz
  have hv : validate_file_type env.file.sniff ALLOWED_PDF_TYPES
      = Except.ok () := by
    rw [hsn]; decide
  have hcomp : converter_para_imagem env
      = (HResult.ok 1 (Payload.jpegPage 0)
            (sanitize_filename env.nome defaultJpgName jpgExtn),
         ⟨2, [1, 0], 1, 1, n + 1, [0, 1]⟩) := by
    unfold converter_para_imagem
    rw [hs, hv, hpg, hwr]
    rfl
  rw [hcomp]
  exact ⟨rfl, rfl⟩

/-- Witness for the amended C6 at a concrete two-page PDF request. -/
theorem c6_first_page_jpeg_w :
    (converter_para_imagem envTwoPages).1
      = HResult.ok 1 (Payload.jpegPage 0) defaultJpgName
    ∧ (converter_para_imagem envTwoPages).2.rasterized = 2 := by
  have h := c6_first_page_jpeg envTwoPages 1 (by decide) rfl rfl rfl
  exact ⟨h.1.trans (by decide), h.2⟩

/-- Claim C7, amended (corrected).  The batch variant does not rely on the
client header alone: after the `image/` header check it sniffs the bytes on
disk via `validate_file_type`, so a file passing the header check whose
sniffed type is outside the image allow-list is rejected with 400, with the
sniffer invoked and all scratch files deleted. -/
theorem c7_sniff_in_batch (f : FileEnv) (rest : List FileEnv)
    (nome : Option (List Char)) (io oo : Bool) (m : List Char)
    (hh : strStartsWith f.contentType MIME_IMAGE_PRE = true)
    (hsz : f.chunks.sum ≤ MAX_FILE_SIZE)
    (hsn : f.sniff = some m) (hm : m ∉ ALLOWED_IMAGE_TYPES) :
    (converter_para_pdf ⟨f :: rest, nome, io, oo⟩).1
      = HResult.err ⟨400, ErrDetail.invalidFileType m⟩
    ∧ (converter_para_pdf ⟨f :: rest, nome, io, oo⟩).2.sniffCalls = 1
    ∧ (converter_para_pdf ⟨f :: rest, nome, io, oo⟩).2.live = [] := by
  have hv : validate_file_type f.sniff ALLOWED_IMAGE_TYPES
      = Except.error ⟨400, ErrDetail.invalidFileType m⟩ := by
    rw [hsn]; simp [validate_file_type, hm]
  have hloop := pdfLoop_cons_validate_err f rest initSt [] _ hh hsz hv
  have hcomp : converter_para_pdf ⟨f :: rest, nome, io, oo⟩
      = (HResult.err ⟨400, ErrDetail.invalidFileType m⟩,
         cleanupAll (stepSt initSt) [0]) := by
    unfold converter_para_pdf
    rw [if_neg (by simp), hloop]
    rfl
  rw [hcomp]
  exact ⟨rfl, rfl, rfl⟩

/-- Witness for the amended C7 at the spoofed `text/plain` upload. -/
theorem c7_sniff_in_batch_w :
    (converter_para_pdf envSpoofed).1
      = HResult.err ⟨400, ErrDetail.invalidFileType ("text/plain".toList)⟩
    ∧ (converter_para_pdf envSpoofed).2.sniffCalls = 1
    ∧ (converter_para_pdf envSpoofed).2.live = [] := by
  exact c7_sniff_in_batch spoofedFile [] none true true ("text/plain".toList)
    (by decide) (by decide) rfl (by decide)

/-- Claim C9, amended (corrected).  `sanitize_filename` is the identity on
every non-blank filename built only of word characters, hyphens, periods and
spaces whose lowercase form ends with the required extension, provided the
name carries no leading or trailing space (a bounding space is trimmed by
`strip`, which is what refutes the original claim). -/
theorem c9_identity_cond (f d e : List Char) (hne : f ≠ [])
    (hall : ∀ c ∈ f, keepChar c = true)
    (hh : f.head? ≠ some ' ') (hl : f.getLast? ≠ some ' ')
    (hsuf : e.isSuffixOf (pyLower f) = true) :
    sanitize_filename (some f) d e = f :=
  sanitize_eq_self f d e hne hall hh hl hsuf

/-- Witness for the amended C9 at a concrete safe filename. -/
theorem c9_identity_cond_w :
    sanitize_filename (some ("relatorio_2024.pdf".toList)) defaultPdfName pdfExtn
      = "relatorio_2024.pdf".toList :=
  c9_identity_cond ("relatorio_2024.pdf".toList) defaultPdfName pdfExtn
    (by decide) (by decide) (by decide) (by decide) (by decide)

/-- Claim C8, amended (corrected).  `sanitize_filename` is idempotent
provided the default is itself a fixed point of sanitization, the extension
is lowercase and built only of kept non-space characters, and the stripped,
filtered input has no leading or trailing space.  (Without these provisos the
original unconditional claim fails, e.g. when the default lacks the
extension.) -/
theorem c8_idempotent_cond (f d e : List Char)
    (hd : sanitize_filename (some d) d e = d)
    (he1 : ∀ c ∈ e, keepChar c = true)
    (he2 : ' ' ∉ e)
    (he3 : pyLower e = e)
    (hf1 : (pySub (pyStrip f)).head? ≠ some ' ')
    (hf2 : (pySub (pyStrip f)).getLast? ≠ some ' ') :
    sanitize_filename (some (sanitize_filename (some f) d e)) d e
      = sanitize_filename (some f) d e := by
  by_cases hb : f = [] ∨ pyStrip f = []
  · have h1 : sanitize_filename (some f) d e = d := by
      simp only [sanitize_filename]
      rw [if_pos hb]
    rw [h1]
    exact hd
  · obtain ⟨s, hsg⟩ : ∃ s, pySub (pyStrip f) = s := ⟨_, rfl⟩
    rw [hsg] at hf1 hf2
    by_cases hs0 : s = []
    · have h1 : sanitize_filename (some f) d e = d := by
        simp only [sanitize_filename]
        rw [if_neg hb, hsg, if_pos hs0]
      rw [h1]
      exact hd
    · have hall_s : ∀ c ∈ s, keepChar c = true := by
        intro c hc
        rw [← hsg] at hc
        exact (List.mem_filter.mp hc).2
      by_cases hsuf : e.isSuffixOf (pyLower s) = true
      · have h1 : sanitize_filename (some f) d e = s := by
          simp only [sanitize_filename]
          rw [if_neg hb, hsg, if_neg hs0, if_pos hsuf]
        rw [h1]
        exact sanitize_eq_self s d e hs0 hall_s hf1 hf2 hsuf
      · have he_ne : e ≠ [] := by
          intro h0
          subst h0
          exact hsuf (by simp)
        have h1 : sanitize_filename (some f) d e = s ++ e := by
          simp only [sanitize_filename]
          rw [if_neg hb, hsg, if_neg hs0, if_neg hsuf]
        rw [h1]
        apply sanitize_eq_self
        · simp [hs0]
        · intro c hc
          rcases List.mem_append.mp hc with h | h
          exacts [hall_s c h, he1 c h]
        · cases s with
          | nil => exact absurd rfl hs0
          | cons a as => simpa using hf1
        · rw [List.getLast?_append_of_ne_nil _ he_ne]
          intro hx
          obtain ⟨h0, heq⟩ := List.mem_getLast?_eq_getLast
            (show ' ' ∈ e.getLast? from hx)
          exact he2 (heq ▸ List.getLast_mem h0)
        · have hlow : pyLower (s ++ e) = pyLower s ++ e := by
            have hmap : pyLower (s ++ e) = pyLower s ++ pyLower e :=
              List.map_append _ _ _
            rw [hmap, he3]
          rw [hlow]
          exact List.isSuffixOf_iff_suffix.mpr (List.suffix_append _ _)

/-- Witness for the amended C8 at the program's own default and extension. -/
theorem c8_idempotent_cond_w :
    sanitize_filename
        (some (sanitize_filename (some ("relatorio final".toList))
          defaultPdfName pdfExtn)) defaultPdfName pdfExtn
      = sanitize_filename (some ("relatorio final".toList))
          defaultPdfName pdfExtn :=
  c8_idempotent_cond ("relatorio final".toList) defaultPdfName pdfExtn
    (by decide) (by decide) (by decide) (by decide) (by decide) (by decide)

end ProjetoPDF
